import Mathlib

/-!
# artipfw/aperitif: geocode, render, screenshot

A shallow embedding of the Go sources

* `googlemap/googlemaps_client.go` (`geocode`, `generateMapHTML`, `Run`),
* `aperitif_scraper/hoodmap/hoodmaps_client.go` (`Run`),
* `tools/capture_region_map/main.go` (`sanitizeFilename`, the output path of `main`).

Go strings are Lean strings; a `for _, ch := range s` loop visits the characters of the
string in order.  A `float64` is a Lean `Float`; coordinates are only moved around, never
computed with.  Everything the programs obtain from outside (environment, HTTP, the JSON
decoder, the browser, the file system) is an explicit field of a `World`.
-/

namespace Aperitif

/-! ## The Go standard library, as far as the programs use it -/

/-- A byte buffer (`[]byte`). -/
abbrev Bytes := List UInt8

namespace Os

/-- Go `os.Getenv`: the value of the variable, the empty string when it is unset. -/
def Getenv (env : String → Option String) (key : String) : String :=
  match env key with
  | some v => v
  | none => ""

/-- A regular file: its bytes, and whether the process may open it for writing. -/
structure File where
  data : Bytes
  writable : Bool

/-- What a path names: a regular file, by its inode number, or a directory. -/
inductive Entry where
  | file (ino : Nat)
  | dir
  deriving DecidableEq

/-- The file system.  Paths name entries, and several paths may name one file (links); the
files themselves are kept by inode number. -/
structure FS where
  /-- what each path names, if anything -/
  entry : String → Option Entry
  /-- the regular files, by inode number -/
  inode : Nat → File
  /-- the first inode number not in use -/
  next : Nat
  /-- whether the process may create a new entry under this path (its directory exists and
  is writable) -/
  creatable : String → Bool
  /-- the free storage, in bytes -/
  free : Nat

/-- The flags of `os.OpenFile` that decide how a file is opened for writing. -/
structure OpenFlags where
  O_CREATE : Bool
  O_EXCL : Bool
  O_TRUNC : Bool

/-- Go `os.OpenFile` with `O_WRONLY`, giving the state after the call and the inode of the
open file.  A missing file is created only under `O_CREATE` and where the process may create
it; a directory is refused; an existing file is refused under `O_CREATE|O_EXCL` or when the
process may not write it, and emptied under `O_TRUNC`.  A created file has the mode `0644`
of the calls here, so the process may write it. -/
def OpenFile (fs : FS) (name : String) (flag : OpenFlags) : Except String (FS × Nat) :=
  match fs.entry name with
  | none =>
    if flag.O_CREATE then
      if fs.creatable name then
        .ok ({ fs with
                entry := fun p => if p = name then some (.file fs.next) else fs.entry p
                inode := fun i => if i = fs.next then { data := [], writable := true }
                  else fs.inode i
                next := fs.next + 1 }, fs.next)
      else .error ("open " ++ name ++ ": permission denied")
    else .error ("open " ++ name ++ ": no such file or directory")
  | some .dir => .error ("open " ++ name ++ ": is a directory")
  | some (.file ino) =>
    if flag.O_CREATE ∧ flag.O_EXCL then .error ("open " ++ name ++ ": file exists")
    else if (fs.inode ino).writable = false then
      .error ("open " ++ name ++ ": permission denied")
    else if flag.O_TRUNC then
      .ok ({ fs with
              inode := fun i => if i = ino then { fs.inode ino with data := [] }
                else fs.inode i
              free := fs.free + (fs.inode ino).data.length }, ino)
    else .ok (fs, ino)

/-- Go `(*File).Write` on a freshly opened file: `data` replaces the bytes from offset 0.
When the storage has no room for the growth, the bytes that fit are written and the call
reports the error. -/
def Write (fs : FS) (name : String) (ino : Nat) (data : Bytes) : FS × Option String :=
  let old := (fs.inode ino).data
  if data.length - old.length ≤ fs.free then
    ({ fs with
        inode := fun i => if i = ino then
            { fs.inode ino with data := data ++ old.drop data.length }
          else fs.inode i
        free := fs.free - (data.length - old.length) }, none)
  else
    ({ fs with
        inode := fun i => if i = ino then
            { fs.inode ino with data := data.take (old.length + fs.free) }
          else fs.inode i
        free := 0 }, some ("write " ++ name ++ ": no space left on device"))

/-- Go `os.WriteFile`: `OpenFile(name, O_WRONLY|O_CREATE|O_TRUNC, perm)`, `Write`, `Close`;
the state after the call and the error it returns. -/
def WriteFile (fs : FS) (name : String) (data : Bytes) : FS × Option String :=
  match OpenFile fs name { O_CREATE := true, O_EXCL := false, O_TRUNC := true } with
  | .error err => (fs, some err)
  | .ok (fs1, ino) => Write fs1 name ino data

end Os

namespace Url

/-- The table `upperhex` of `net/url`. -/
def upperhex : List Char := "0123456789ABCDEF".data

/-- Go `shouldEscape(c, encodeQueryComponent)`: letters, digits and `-_.~` are kept. -/
def shouldEscape (c : UInt8) : Bool :=
  if (97 ≤ c ∧ c ≤ 122) ∨ (65 ≤ c ∧ c ≤ 90) ∨ (48 ≤ c ∧ c ≤ 57) then false
  else if c = 45 ∨ c = 95 ∨ c = 46 ∨ c = 126 then false
  else true

/-- One byte of `escape(s, encodeQueryComponent)`. -/
def escapeByte (c : UInt8) : List Char :=
  if shouldEscape c then
    if c = 32 then ['+']
    else ['%', upperhex.getD (c.toNat / 16) '0', upperhex.getD (c.toNat % 16) '0']
  else [Char.ofNat c.toNat]

/-- Go `url.QueryEscape`, byte by byte over the UTF-8 encoding of `s`. -/
def QueryEscape (s : String) : String :=
  String.mk ((s.data.flatMap String.utf8EncodeChar).flatMap escapeByte)

/-- The characters `QueryEscape` can put out: the unreserved ones, `%` and `+`. -/
def escapedChars : List Char :=
  "ABCDEFGHIJKLMNOPQRSTUVWXYZabcdefghijklmnopqrstuvwxyz0123456789-_.~%+".data

end Url

namespace Filepath

/-- The inner loop of a `..` element in `Clean`: from `w`, step back while `w > dotdot` and
the byte at `w` is no separator. -/
def backtrack (buf : List Char) (dotdot : Nat) : Nat → Nat
  | 0 => 0
  | w + 1 =>
    if w + 1 > dotdot ∧ buf.getD (w + 1) '/' ≠ '/' then backtrack buf dotdot w else w + 1

/-- The main loop of Go `filepath.Clean` (Unix): `path` is what is left to read, `out` the
bytes written so far (`out.w` is its length), `dotdot` the index where `..` must stop.
Each round reads at least one byte, so `fuel` above the length of `path` is never used up. -/
def cleanLoop (rooted : Bool) : Nat → List Char → List Char → Nat → List Char
  | 0, _, out, _ => out
  | fuel + 1, path, out, dotdot =>
    match path with
    | [] => out
    | c :: rest =>
      if c = '/' then
        cleanLoop rooted fuel rest out dotdot
      else if c = '.' ∧ (rest = [] ∨ rest.head? = some '/') then
        cleanLoop rooted fuel rest out dotdot
      else if c = '.' ∧ rest.head? = some '.'
          ∧ (rest.tail = [] ∨ rest.tail.head? = some '/') then
        if out.length > dotdot then
          cleanLoop rooted fuel rest.tail
            (out.take (backtrack out dotdot (out.length - 1))) dotdot
        else if rooted = false then
          let out1 := (if out.length > 0 then out ++ ['/'] else out) ++ ['.', '.']
          cleanLoop rooted fuel rest.tail out1 out1.length
        else
          cleanLoop rooted fuel rest.tail out dotdot
      else
        let out1 :=
          if (rooted = true ∧ out.length ≠ 1) ∨ (rooted = false ∧ out.length ≠ 0) then
            out ++ ['/']
          else out
        cleanLoop rooted fuel (path.dropWhile (· ≠ '/'))
          (out1 ++ path.takeWhile (· ≠ '/')) dotdot

/-- Go `filepath.Clean` on Unix (no volume name, separator `/`). -/
def Clean (path : String) : String :=
  if path = "" then "."
  else
    let rooted : Bool := path.data.head? = some '/'
    let out :=
      if rooted then cleanLoop rooted (path.data.length + 1) path.data.tail ['/'] 1
      else cleanLoop rooted (path.data.length + 1) path.data [] 0
    if out.length = 0 then "." else String.mk out

/-- Go `filepath.Join` on Unix: the elements from the first non-empty one on, joined by the
separator and cleaned. -/
def Join (elem : List String) : String :=
  match elem.dropWhile (· = "") with
  | [] => ""
  | e :: es => Clean ("/".intercalate (e :: es))

end Filepath

/-! ## googlemap/googlemaps_client.go -/

namespace Googlemap

def defaultAddress : String := "208 Anza St, San Francisco, CA"
def htmlPort : String := ":8080"
def outputPNG : String := "google_screenshot.png"

structure Location where
  Lat : Float
  Lng : Float

structure Geometry where
  Location : Location

structure Result where
  Geometry : Geometry

structure GeocodeResponse where
  Results : List Result
  Status : String

/-- What one run sees of the outside. -/
structure World where
  /-- the process environment -/
  env : String → Option String
  /-- `http.Get`: the response body, or the error text -/
  httpGet : String → Except String String
  /-- `json.NewDecoder(body).Decode(&result)` -/
  jsonDecode : String → Except String GeocodeResponse
  /-- the verb `%f` of `fmt` -/
  formatFloat : Float → String
  /-- the error `server.ListenAndServe()` returns on an address, `none` while it serves -/
  listenAndServe : String → Option String
  /-- `chromedp.Run` of navigate, sleep, full screenshot: the URL, and the page the local
  server hands out, give the screenshot or the error text -/
  chromedp : String → Option String → Except String Bytes
  /-- the files before the run -/
  fs : Os.FS

/-- The URL `u` built in the first two lines of `geocode`. -/
def geocodeURL (address apiKey : String) : String :=
  let endpoint := "https://maps.googleapis.com/maps/api/geocode/json"
  endpoint ++ "?address=" ++ Url.QueryEscape address ++ "&key=" ++ apiKey

/-- Go `geocode`, the returned triple `(lat, lng, err)`; `err` is the error text. -/
def geocode (w : World) (address apiKey : String) : Float × Float × Option String :=
  let u := geocodeURL address apiKey
  match w.httpGet u with
  | .error err => (0, 0, some err)
  | .ok body =>
    match w.jsonDecode body with
    | .error err => (0, 0, some err)
    | .ok result =>
      if h : result.Status ≠ "OK" ∨ result.Results.length = 0 then
        (0, 0, some ("failed to geocode address: " ++ result.Status))
      else
        have hlen : 0 < result.Results.length := by
          rcases Nat.eq_zero_or_pos result.Results.length with h0 | h0
          · exact absurd (Or.inr h0) h
          · exact h0
        let lat := result.Results[0].Geometry.Location.Lat
        let lng := result.Results[0].Geometry.Location.Lng
        (lat, lng, none)

/-- Go `generateMapHTML`: the template with `%s`, `%f`, `%f` filled in and `%%` as `%`. -/
def generateMapHTML (formatFloat : Float → String) (lat lng : Float) (apiKey : String) :
    String :=
  "\n<!DOCTYPE html>\n<html>\n  <head>\n    <title>Map Screenshot</title>\n    <style>\n"
  ++ "      html, body, #map \x7b\n        margin: 0;\n        padding: 0;\n"
  ++ "        height: 100%;\n        width: 100%;\n      \x7d\n    </style>\n"
  ++ "    <script src=\"https://maps.googleapis.com/maps/api/js?key=" ++ apiKey
  ++ "\"></script>\n    <script>\n      function initMap() \x7b\n"
  ++ "        const center = \x7b lat: " ++ formatFloat lat ++ ", lng: " ++ formatFloat lng
  ++ " \x7d;\n"
  ++ "        const map = new google.maps.Map(document.getElementById(\"map\"), \x7b\n"
  ++ "          zoom: 13,\n          center: center,\n          disableDefaultUI: true\n"
  ++ "        \x7d);\n        new google.maps.Marker(\x7b\n          position: center,\n"
  ++ "          map: map\n        \x7d);\n      \x7d\n      window.onload = initMap;\n"
  ++ "    </script>\n  </head>\n  <body>\n    <div id=\"map\"></div>\n  </body>\n</html>"

/-- What a run does to the outside, in order. -/
inductive Event where
  /-- `http.Get(url)` -/
  | httpGet (url : String)
  /-- `log.Printf` -/
  | logPrintf (msg : String)
  /-- `http.HandleFunc(pattern, ...)`, the handler writing `page` -/
  | handleFunc (pattern : String) (page : String)
  /-- `go server.ListenAndServe()` on `addr` -/
  | listenAndServe (addr : String)
  /-- `time.Sleep` -/
  | sleep (seconds : Nat)
  /-- `chromedp.Run` navigating to `url` -/
  | chromedpRun (url : String)
  /-- `os.WriteFile(name, data, 0644)` -/
  | writeFile (name : String) (data : Bytes)
  /-- `server.Close()`, deferred -/
  | serverClose
  /-- `log.Fatal`: the message, then `os.Exit(1)` -/
  | logFatal (msg : String)
  deriving DecidableEq

/-- The result of a run: its effects, the files after it, and whether `log.Fatal` ended it. -/
structure Outcome where
  trace : List Event
  fs : Os.FS
  fatal : Bool

/-- The address chosen at the top of `Run`. -/
def selectedAddress (address : List String) : String :=
  if address.length > 0 ∧ address.getD 0 "" ≠ "" then address.getD 0 "" else defaultAddress

/-- Step 4 of `Run`: the call `os.WriteFile(outputPNG, buf, 0644)`. -/
def saveScreenshot (fs : Os.FS) (buf : Bytes) : Os.FS × Option String :=
  Os.WriteFile fs outputPNG buf

/-- Go `Run`.  The goroutine that serves the page is placed at the `time.Sleep` that follows
its start: a `ListenAndServe` error ends the process there. -/
def Run (w : World) (address : List String) : Outcome :=
  let selectedAddress := selectedAddress address
  let apiKey := Os.Getenv w.env "GOOGLE_MAP_API_KEY"
  if apiKey = "" then
    { trace := [.logFatal "GOOGLE_MAP_API_KEY environment variable not set"],
      fs := w.fs, fatal := true }
  else
    let t1 := [Event.httpGet (geocodeURL selectedAddress apiKey)]
    match geocode w selectedAddress apiKey with
    | (_, _, some err) =>
      { trace := t1 ++ [.logFatal ("Geocoding failed: " ++ err)], fs := w.fs, fatal := true }
    | (lat, lng, none) =>
      let t2 := t1 ++ [.logPrintf ("Coordinates: lat=" ++ w.formatFloat lat ++ ", lng="
        ++ w.formatFloat lng)]
      let html := generateMapHTML w.formatFloat lat lng apiKey
      let t3 := t2 ++ [.handleFunc "/" html, .listenAndServe htmlPort,
        .logPrintf ("Serving map on http://localhost" ++ htmlPort)]
      match w.listenAndServe htmlPort with
      | some err =>
        { trace := t3 ++ [.logFatal ("Server failed: " ++ err)], fs := w.fs, fatal := true }
      | none =>
        let t4 := t3 ++ [.sleep 3, .chromedpRun ("http://localhost" ++ htmlPort)]
        match w.chromedp ("http://localhost" ++ htmlPort) (some html) with
        | .error err =>
          { trace := t4 ++ [.logFatal ("chromedp screenshot failed: " ++ err)],
            fs := w.fs, fatal := true }
        | .ok buf =>
          let t5 := t4 ++ [.writeFile outputPNG buf]
          match saveScreenshot w.fs buf with
          | (fs1, some err) =>
            { trace := t5 ++ [.logFatal ("Failed to save screenshot: " ++ err)],
              fs := fs1, fatal := true }
          | (fs1, none) =>
            { trace := t5 ++ [.logPrintf ("Screenshot saved to " ++ outputPNG), .serverClose],
              fs := fs1, fatal := false }

/-- The URLs of the `http.Get` calls of a trace, in order. -/
def httpRequests (trace : List Event) : List String :=
  trace.filterMap fun e =>
    match e with
    | .httpGet url => some url
    | _ => none

/-- A sample geocoding response: two results, status `OK`. -/
def sampleResponse : GeocodeResponse :=
  { Results := [⟨⟨⟨37.78, -122.46⟩⟩⟩, ⟨⟨⟨48.85, 2.35⟩⟩⟩], Status := "OK" }

/-- An empty file system with room for a thousand bytes. -/
def emptyFiles : Os.FS :=
  { entry := fun _ => none
    inode := fun _ => { data := [], writable := false }
    next := 0
    creatable := fun _ => true
    free := 1000 }

/-- A sample world: the key is as given, the geocoder answers `body` with `status` and the
sample results, the server and the browser work, no file exists yet. -/
def sampleWorld (key : Option String) (status : String) : World :=
  { env := fun name => if name = "GOOGLE_MAP_API_KEY" then key else none
    httpGet := fun _ => .ok "body"
    jsonDecode := fun _ => .ok { sampleResponse with Status := status }
    formatFloat := fun x => x.toString
    listenAndServe := fun _ => none
    chromedp := fun _ _ => .ok [137, 80, 78, 71]
    fs := emptyFiles }

end Googlemap

/-! ## aperitif_scraper/hoodmap/hoodmaps_client.go -/

namespace Hoodmap

/-- Step "Save to file" of `Run`: the call
`os.WriteFile("hoodmaps_screenshot.png", buf, 0644)`. -/
def saveScreenshot (fs : Os.FS) (buf : Bytes) : Os.FS × Option String :=
  Os.WriteFile fs "hoodmaps_screenshot.png" buf

/-- Go `Run`: the scripted browser session, then the file. -/
def Run (w : Googlemap.World) : Googlemap.Outcome :=
  let url := "https://hoodmaps.com/san-francisco-neighborhood-map"
  match w.chromedp url none with
  | .error err => { trace := [.chromedpRun url, .logFatal err], fs := w.fs, fatal := true }
  | .ok buf =>
    match saveScreenshot w.fs buf with
    | (fs1, some err) =>
      { trace := [.chromedpRun url, .writeFile "hoodmaps_screenshot.png" buf, .logFatal err],
        fs := fs1, fatal := true }
    | (fs1, none) =>
      { trace := [.chromedpRun url, .writeFile "hoodmaps_screenshot.png" buf,
          .logPrintf "Screenshot saved as hoodmaps_screenshot.png"],
        fs := fs1, fatal := false }

end Hoodmap

/-! ## tools/capture_region_map/main.go -/

namespace CaptureRegionMap

/-- The body of the `range` loop of `sanitizeFilename`: one rune is appended to `result`,
replaced by an underscore, or skipped. -/
def sanitizeStep (result : String) (ch : Char) : String :=
  if (ch ≥ 'a' ∧ ch ≤ 'z') ∨ (ch ≥ 'A' ∧ ch ≤ 'Z') ∨ (ch ≥ '0' ∧ ch ≤ '9')
      ∨ ch = '-' ∨ ch = '_' then
    result ++ String.singleton ch
  else if ch = ' ' then
    result ++ "_"
  else
    result

/-- Go `sanitizeFilename`: `result := ""`, then the loop over the runes of `s`.  The
characters of the Lean string are the runes the `range` loop yields, in order (for a byte
that is not valid UTF-8 the loop yields U+FFFD, a character like any other here). -/
def sanitizeFilename (s : String) : String :=
  s.data.foldl sanitizeStep ""

/-- The `outputPath` of `main` for the address `os.Args[1]`. -/
def outputPath (address : String) : String :=
  let screenshotDir := "./screenshots"
  let filename := "region_map_" ++ sanitizeFilename address ++ ".png"
  Filepath.Join [screenshotDir, filename]

/-- The characters `[A-Za-z0-9_-]`, written out. -/
def keptChars : List Char :=
  "ABCDEFGHIJKLMNOPQRSTUVWXYZabcdefghijklmnopqrstuvwxyz0123456789_-".data

/-- The sanitization as the specification words it: a character of `[A-Za-z0-9_-]` is kept,
a space becomes an underscore, any other character is dropped; the order is kept. -/
def specStep (c : Char) : Option Char :=
  if c ∈ keptChars then some c else if c = ' ' then some '_' else none

/-- The specification's sanitization of a whole address. -/
def sanitizeSpec (s : String) : String :=
  String.mk (s.data.filterMap specStep)

end CaptureRegionMap

/-! ## Theorems: tools/capture_region_map/main.go -/

namespace CaptureRegionMap

theorem mem_keptChars_of_between (c : Char) (lo hi : Nat) (h1 : lo ≤ c.toNat)
    (h2 : c.toNat ≤ hi) (hall : ∀ n, lo ≤ n → n ≤ hi → Char.ofNat n ∈ keptChars) :
    c ∈ keptChars := by
  have hmem := hall c.toNat h1 h2
  rwa [Char.ofNat_toNat] at hmem

theorem toNat_le_of_le {a b : Char} (h : a ≤ b) : a.toNat ≤ b.toNat := h

/-- The comparisons of the loop body accept exactly the characters of `keptChars`. -/
theorem rangeTest_iff_mem (ch : Char) :
    ((ch ≥ 'a' ∧ ch ≤ 'z') ∨ (ch ≥ 'A' ∧ ch ≤ 'Z') ∨ (ch ≥ '0' ∧ ch ≤ '9')
      ∨ ch = '-' ∨ ch = '_') ↔ ch ∈ keptChars := by
  constructor
  · rintro (⟨h1, h2⟩ | ⟨h1, h2⟩ | ⟨h1, h2⟩ | h | h)
    · refine mem_keptChars_of_between ch 97 122 (toNat_le_of_le h1) (toNat_le_of_le h2) ?_
      intro n hn1 hn2
      interval_cases n <;> decide
    · refine mem_keptChars_of_between ch 65 90 (toNat_le_of_le h1) (toNat_le_of_le h2) ?_
      intro n hn1 hn2
      interval_cases n <;> decide
    · refine mem_keptChars_of_between ch 48 57 (toNat_le_of_le h1) (toNat_le_of_le h2) ?_
      intro n hn1 hn2
      interval_cases n <;> decide
    · subst h; decide
    · subst h; decide
  · have hall : ∀ c ∈ keptChars, ((c ≥ 'a' ∧ c ≤ 'z') ∨ (c ≥ 'A' ∧ c ≤ 'Z')
        ∨ (c ≥ '0' ∧ c ≤ '9') ∨ c = '-' ∨ c = '_') := by decide
    exact hall ch

theorem sanitizeStep_data (result : String) (ch : Char) :
    (sanitizeStep result ch).data = result.data ++ (specStep ch).toList := by
  unfold sanitizeStep specStep
  by_cases hk : ch ∈ keptChars
  · rw [if_pos ((rangeTest_iff_mem ch).2 hk), if_pos hk]
    simp [String.data_append]
  · rw [if_neg (fun h => hk ((rangeTest_iff_mem ch).1 h)), if_neg hk]
    by_cases hs : ch = ' '
    · simp [hs, String.data_append]
    · simp [hs]

theorem foldl_sanitizeStep_data (l : List Char) (acc : String) :
    (l.foldl sanitizeStep acc).data = acc.data ++ l.filterMap specStep := by
  induction l generalizing acc with
  | nil => simp
  | cons c cs ih =>
    rw [List.foldl_cons, ih, sanitizeStep_data]
    cases hc : specStep c <;> simp [List.filterMap_cons, hc]

theorem sanitizeFilename_data (s : String) :
    (sanitizeFilename s).data = s.data.filterMap specStep := by
  unfold sanitizeFilename
  rw [foldl_sanitizeStep_data]
  simp

/-- C3: sanitizeFilename returns the characters of its input in their order, keeping those
of [A-Za-z0-9_-], turning each space into one underscore and dropping every other one;
"San Francisco, CA" gives "San_Francisco_CA". -/
theorem sanitizeFilename_refines_spec (s : String) :
    sanitizeFilename s = sanitizeSpec s
    ∧ sanitizeFilename "San Francisco, CA" = "San_Francisco_CA" := by
  refine ⟨?_, by decide⟩
  apply String.ext
  rw [sanitizeFilename_data]
  rfl

theorem sanitizeFilename_mem (s : String) :
    ∀ c ∈ (sanitizeFilename s).data, c ∈ keptChars := by
  intro c hc
  rw [sanitizeFilename_data, List.mem_filterMap] at hc
  obtain ⟨a, _, ha⟩ := hc
  unfold specStep at ha
  split at ha
  · cases ha; assumption
  · split at ha
    · cases ha; decide
    · cases ha

end CaptureRegionMap

namespace Filepath

theorem cleanLoop_nil (rooted : Bool) (fuel : Nat) (out : List Char) (dotdot : Nat) :
    cleanLoop rooted fuel [] out dotdot = out := by
  cases fuel <;> simp [cleanLoop]

theorem takeWhile_no_sep (l : List Char) (h : '/' ∉ l) :
    l.takeWhile (· ≠ '/') = l := by
  rw [List.takeWhile_eq_self_iff]
  intro c hc
  simp only [ne_eq, decide_not, Bool.not_eq_true', decide_eq_false_iff_not]
  rintro rfl
  exact h hc

theorem dropWhile_no_sep (l : List Char) (h : '/' ∉ l) :
    l.dropWhile (· ≠ '/') = [] := by
  rw [List.dropWhile_eq_nil_iff]
  intro c hc
  simp only [ne_eq, decide_not, Bool.not_eq_true', decide_eq_false_iff_not]
  rintro rfl
  exact h hc

theorem takeWhile_append_sep (l rest : List Char) (h : '/' ∉ l) :
    (l ++ '/' :: rest).takeWhile (· ≠ '/') = l := by
  induction l with
  | nil => simp
  | cons c cs ih =>
    have hc : c ≠ '/' := fun hc => h (by simp [hc])
    have hcs : '/' ∉ cs := fun hm => h (List.mem_cons_of_mem _ hm)
    have ih2 := ih hcs
    simp only [ne_eq, decide_not] at ih2
    simp [List.takeWhile_cons, hc, ih2]

theorem dropWhile_append_sep (l rest : List Char) (h : '/' ∉ l) :
    (l ++ '/' :: rest).dropWhile (· ≠ '/') = '/' :: rest := by
  induction l with
  | nil => simp
  | cons c cs ih =>
    have hc : c ≠ '/' := fun hc => h (by simp [hc])
    have hcs : '/' ∉ cs := fun hm => h (List.mem_cons_of_mem _ hm)
    have ih2 := ih hcs
    simp only [ne_eq, decide_not] at ih2
    simp [List.dropWhile_cons, hc, ih2]

theorem cleanLoop_sep (rooted : Bool) (fuel : Nat) (rest out : List Char) (dotdot : Nat) :
    cleanLoop rooted (fuel + 1) ('/' :: rest) out dotdot
      = cleanLoop rooted fuel rest out dotdot := by
  simp [cleanLoop]

theorem cleanLoop_dot (rooted : Bool) (fuel : Nat) (rest out : List Char) (dotdot : Nat) :
    cleanLoop rooted (fuel + 1) ('.' :: '/' :: rest) out dotdot
      = cleanLoop rooted fuel ('/' :: rest) out dotdot := by
  simp [cleanLoop]

theorem cleanLoop_elem (fuel : Nat) (c : Char) (rest out : List Char) (dotdot : Nat)
    (h1 : c ≠ '/') (h2 : c ≠ '.') :
    cleanLoop false (fuel + 1) (c :: rest) out dotdot
      = cleanLoop false fuel ((c :: rest).dropWhile (· ≠ '/'))
          ((if out.length ≠ 0 then out ++ ['/'] else out)
            ++ (c :: rest).takeWhile (· ≠ '/')) dotdot := by
  simp [cleanLoop, h1, h2]

/-- The loop of `Clean` on `./screenshots/` followed by one element `region_map_...`. -/
theorem cleanLoop_screenshots (r : List Char) (hr : '/' ∉ r) (k : Nat) :
    cleanLoop false (k + 5) ("./screenshots/region_map_".data ++ (r ++ ".png".data)) [] 0
      = "screenshots/region_map_".data ++ (r ++ ".png".data) := by
  have hname : '/' ∉ "region_map_".data ++ (r ++ ".png".data) := by
    simp only [List.mem_append, not_or]
    exact ⟨by decide, hr, by decide⟩
  have hsplit : "./screenshots/region_map_".data ++ (r ++ ".png".data)
      = '.' :: '/' :: ("screenshots".data ++ '/' :: ("region_map_".data ++ (r ++ ".png".data))) := rfl
  have hshots : '/' ∉ "screenshots".data := by decide
  rw [hsplit, cleanLoop_dot, cleanLoop_sep]
  have hs : "screenshots".data ++ '/' :: ("region_map_".data ++ (r ++ ".png".data))
      = 's' :: ("creenshots".data ++ '/' :: ("region_map_".data ++ (r ++ ".png".data))) := rfl
  rw [hs, cleanLoop_elem _ _ _ _ _ (by decide) (by decide), ← hs,
    takeWhile_append_sep _ _ hshots, dropWhile_append_sep _ _ hshots, cleanLoop_sep]
  have hn : "region_map_".data ++ (r ++ ".png".data)
      = 'r' :: ("egion_map_".data ++ (r ++ ".png".data)) := rfl
  rw [hn, cleanLoop_elem _ _ _ _ _ (by decide) (by decide), ← hn,
    takeWhile_no_sep _ hname, dropWhile_no_sep _ hname, cleanLoop_nil]
  simp

/-- `Clean` on a path spelled `./screenshots/region_map_`, `r`, `.png` with no separator in
`r`: the leading `./` goes, nothing else changes. -/
theorem Clean_screenshots (path : String) (r : List Char) (hr : '/' ∉ r)
    (hd : path.data = "./screenshots/region_map_".data ++ (r ++ ".png".data)) :
    Clean path = String.mk ("screenshots/region_map_".data ++ (r ++ ".png".data)) := by
  have hne : ¬ path = "" := by
    intro h
    have hnil : path.data = [] := by rw [h]
    rw [hd] at hnil
    exact absurd (congrArg List.length hnil) (by
      rw [List.length_append, show "./screenshots/region_map_".data.length = 25 from rfl]
      simp)
  have hroot : decide (("./screenshots/region_map_".data ++ (r ++ ".png".data)).head?
      = some '/') = false := rfl
  have hlen : ("./screenshots/region_map_".data ++ (r ++ ".png".data)).length + 1
      = (r.length + 25) + 5 := by
    rw [List.length_append, List.length_append,
      show "./screenshots/region_map_".data.length = 25 from rfl,
      show ".png".data.length = 4 from rfl]
    omega
  have hout : ¬ ("screenshots/region_map_".data ++ (r ++ ".png".data)).length = 0 := by
    rw [List.length_append, show "screenshots/region_map_".data.length = 23 from rfl]
    omega
  unfold Clean
  rw [if_neg hne]
  dsimp only
  rw [hd, hroot, if_neg Bool.false_ne_true, hlen, cleanLoop_screenshots r hr, if_neg hout]

end Filepath

namespace CaptureRegionMap

theorem sep_not_mem_sanitizeFilename (s : String) : '/' ∉ (sanitizeFilename s).data :=
  fun h => absurd (sanitizeFilename_mem s '/' h) (by decide)

/-- C9: the result of sanitizeFilename has only characters of [A-Za-z0-9_-], and the output
path is "screenshots/region_map_", the result, ".png": a file name without a separator
directly under screenshots. -/
theorem outputPath_confined (address : String) :
    (∀ c ∈ (sanitizeFilename address).data, c ∈ keptChars)
    ∧ outputPath address = "screenshots/region_map_" ++ sanitizeFilename address ++ ".png"
    ∧ '/' ∉ ("region_map_" ++ sanitizeFilename address ++ ".png").data := by
  have hsep := sep_not_mem_sanitizeFilename address
  refine ⟨sanitizeFilename_mem address, ?_, ?_⟩
  · have hjoin : outputPath address
        = Filepath.Clean ("./screenshots" ++ "/"
            ++ ("region_map_" ++ sanitizeFilename address ++ ".png")) := by
      simp [outputPath, Filepath.Join, String.intercalate, String.intercalate.go]
    rw [hjoin, Filepath.Clean_screenshots _ (sanitizeFilename address).data hsep]
    · apply String.ext
      simp only [String.data_append, List.append_assoc]
    · simp only [String.data_append, List.append_assoc]
      rfl
  · simp only [String.data_append, List.mem_append, not_or]
    exact ⟨⟨by decide, hsep⟩, by decide⟩

theorem outputPath_confined_witness :
    outputPath "../../etc/passwd" = "screenshots/region_map_etcpasswd.png" :=
  (outputPath_confined "../../etc/passwd").2.1.trans (by decide)

/-- C10: sanitizeFilename is not injective: "a b" and "a_b" get one result and one output
path, "a,b" and "ab" get one result, and the non-empty address "," gets the empty result. -/
theorem sanitizeFilename_not_injective :
    ("a b" ≠ "a_b" ∧ sanitizeFilename "a b" = sanitizeFilename "a_b"
      ∧ outputPath "a b" = outputPath "a_b")
    ∧ ("a,b" ≠ "ab" ∧ sanitizeFilename "a,b" = sanitizeFilename "ab"
      ∧ outputPath "a,b" = outputPath "ab")
    ∧ ("," ≠ "" ∧ sanitizeFilename "," = "")
    ∧ ¬ Function.Injective sanitizeFilename := by
  refine ⟨by decide, by decide, by decide, ?_⟩
  intro hinj
  exact absurd (hinj (show sanitizeFilename "a b" = sanitizeFilename "a_b" by decide))
    (by decide)

end CaptureRegionMap

/-! ## Theorems: googlemap and hoodmap -/

namespace Googlemap

/-- C1: when the decoded response has status "OK" and a first result, geocode returns that
result's latitude and longitude unchanged and no error, whatever the later results are. -/
theorem geocode_returns_first (w : World) (address apiKey body : String)
    (result : GeocodeResponse) (first : Result) (rest : List Result)
    (hget : w.httpGet (geocodeURL address apiKey) = .ok body)
    (hdec : w.jsonDecode body = .ok result)
    (hstatus : result.Status = "OK") (hres : result.Results = first :: rest) :
    geocode w address apiKey
      = (first.Geometry.Location.Lat, first.Geometry.Location.Lng, none) := by
  have hcond : ¬ (result.Status ≠ "OK" ∨ result.Results.length = 0) := by
    simp [hstatus, hres]
  simp only [geocode, hget, hdec, dif_neg hcond]
  simp [hres]

theorem geocode_returns_first_witness :
    geocode (sampleWorld (some "k") "OK") "Paris" "k" = (37.78, -122.46, none) :=
  geocode_returns_first (sampleWorld (some "k") "OK") "Paris" "k" "body"
    sampleResponse ⟨⟨⟨37.78, -122.46⟩⟩⟩ [⟨⟨⟨48.85, 2.35⟩⟩⟩] rfl rfl rfl rfl

/-- C2: on a decoded response geocode returns an error exactly when the status is not "OK"
or the result list is empty, and then it returns the coordinates 0, 0 with the error
"failed to geocode address: " followed by the status. -/
theorem geocode_fails_iff (w : World) (address apiKey body : String)
    (result : GeocodeResponse)
    (hget : w.httpGet (geocodeURL address apiKey) = .ok body)
    (hdec : w.jsonDecode body = .ok result) :
    ((geocode w address apiKey).2.2 ≠ none
        ↔ (result.Status ≠ "OK" ∨ result.Results = []))
    ∧ ((result.Status ≠ "OK" ∨ result.Results = []) →
        geocode w address apiKey
          = (0, 0, some ("failed to geocode address: " ++ result.Status))) := by
  by_cases hcond : result.Status ≠ "OK" ∨ result.Results.length = 0
  · have hc2 : result.Status ≠ "OK" ∨ result.Results = [] := by
      simpa [List.length_eq_zero] using hcond
    have hval : geocode w address apiKey
        = (0, 0, some ("failed to geocode address: " ++ result.Status)) := by
      simp only [geocode, hget, hdec, dif_pos hcond]
    exact ⟨by simp [hval, hc2], fun _ => hval⟩
  · have hc2 : ¬ (result.Status ≠ "OK" ∨ result.Results = []) := by
      simpa [List.length_eq_zero] using hcond
    have hval : (geocode w address apiKey).2.2 = none := by
      simp only [geocode, hget, hdec, dif_neg hcond]
    exact ⟨by simp [hval, hc2], fun h => absurd h hc2⟩

theorem geocode_fails_iff_witness :
    geocode (sampleWorld (some "k") "ZERO_RESULTS") "Paris" "k"
      = (0, 0, some "failed to geocode address: ZERO_RESULTS") :=
  (geocode_fails_iff (sampleWorld (some "k") "ZERO_RESULTS") "Paris" "k" "body"
    { sampleResponse with Status := "ZERO_RESULTS" } rfl rfl).2 (Or.inl (by decide))

/-- C4: the requested URL carries the key as it is, not query-escaped: with the key
"k&address=Rome" the URL ends in "&key=k&address=Rome", a second address parameter, and it
is not the URL built from the query-escaped key "k%26address%3DRome"; Run with that key in
the environment requests this URL. -/
theorem geocodeURL_key_not_escaped :
    geocodeURL "Paris" "k&address=Rome"
      = "https://maps.googleapis.com/maps/api/geocode/json?address=Paris&key=k&address=Rome"
    ∧ Url.QueryEscape "k&address=Rome" = "k%26address%3DRome"
    ∧ geocodeURL "Paris" "k&address=Rome"
      ≠ "https://maps.googleapis.com/maps/api/geocode/json" ++ "?address="
          ++ Url.QueryEscape "Paris" ++ "&key=" ++ Url.QueryEscape "k&address=Rome"
    ∧ (Run (sampleWorld (some "k&address=Rome") "OK") ["Paris"]).trace.head?
      = some (.httpGet
          "https://maps.googleapis.com/maps/api/geocode/json?address=Paris&key=k&address=Rome")
      := by
  refine ⟨by decide, by decide, by decide, ?_⟩
  have hurl : geocodeURL "Paris" "k&address=Rome"
      = "https://maps.googleapis.com/maps/api/geocode/json?address=Paris&key=k&address=Rome" := by
    decide
  rw [← hurl]
  rfl

end Googlemap

namespace Googlemap

theorem selectedAddress_cons (a : String) (rest : List String) :
    selectedAddress (a :: rest) = if a = "" then defaultAddress else a := by
  unfold selectedAddress
  by_cases h : a = "" <;> simp [h]

theorem selectedAddress_nil : selectedAddress [] = defaultAddress := by
  simp [selectedAddress]

theorem Run_no_key (w : World) (address : List String)
    (hkey : Os.Getenv w.env "GOOGLE_MAP_API_KEY" = "") :
    Run w address
      = { trace := [.logFatal "GOOGLE_MAP_API_KEY environment variable not set"],
          fs := w.fs, fatal := true } := by
  simp [Run, hkey]

/-- A message that starts differently from the complaint about the key is not it. -/
theorem fatal_msg_ne (pre err : String) (hlen : 2 ≤ pre.data.length)
    (h : pre.data.take 2 ≠ ['G', 'O']) :
    pre ++ err ≠ "GOOGLE_MAP_API_KEY environment variable not set" := by
  intro heq
  have hd := congrArg (fun s => s.data.take 2) heq
  simp only [String.data_append, List.take_append_of_le_length hlen] at hd
  exact h hd

/-- With a key, the trace of `Run` starts with the geocoding request for the selected address
and holds no other request and no complaint about the key. -/
theorem Run_with_key (w : World) (address : List String)
    (hkey : Os.Getenv w.env "GOOGLE_MAP_API_KEY" ≠ "") :
    ∃ tail, (Run w address).trace
        = .httpGet (geocodeURL (selectedAddress address)
            (Os.Getenv w.env "GOOGLE_MAP_API_KEY")) :: tail
      ∧ httpRequests tail = []
      ∧ Event.logFatal "GOOGLE_MAP_API_KEY environment variable not set" ∉ tail := by
  have h1 := fun err => fatal_msg_ne "Geocoding failed: " err (by decide) (by decide)
  have h2 := fun err => fatal_msg_ne "Server failed: " err (by decide) (by decide)
  have h3 := fun err => fatal_msg_ne "chromedp screenshot failed: " err (by decide) (by decide)
  have h4 := fun err => fatal_msg_ne "Failed to save screenshot: " err (by decide) (by decide)
  unfold Run
  simp only [if_neg hkey]
  rcases geocode w (selectedAddress address) (Os.Getenv w.env "GOOGLE_MAP_API_KEY")
    with ⟨lat, lng, _ | err⟩
  · dsimp only
    cases w.listenAndServe htmlPort with
    | some err =>
      exact ⟨_, rfl, by simp [httpRequests], by simpa using (h2 err).symm⟩
    | none =>
      dsimp only
      cases w.chromedp ("http://localhost" ++ htmlPort)
          (some (generateMapHTML w.formatFloat lat lng
            (Os.Getenv w.env "GOOGLE_MAP_API_KEY"))) with
      | error err =>
        exact ⟨_, rfl, by simp [httpRequests], by simpa using (h3 err).symm⟩
      | ok buf =>
        dsimp only
        rcases saveScreenshot w.fs buf with ⟨fs1, _ | err⟩
        · exact ⟨_, rfl, by simp [httpRequests], by simp⟩
        · exact ⟨_, rfl, by simp [httpRequests], by simpa using (h4 err).symm⟩
  · exact ⟨_, rfl, by simp [httpRequests], by simpa using (h1 err).symm⟩

end Googlemap

namespace Googlemap

/-- C5: with a key set, the one geocoding request of Run is for the first argument when it
is not empty, and for "208 Anza St, San Francisco, CA" when the first argument is empty or
there is none; the arguments after the first do not change the run. -/
theorem Run_geocodes_selected_address (w : World) (a : String) (rest : List String)
    (hkey : Os.Getenv w.env "GOOGLE_MAP_API_KEY" ≠ "") :
    (a ≠ "" → httpRequests (Run w (a :: rest)).trace
        = [geocodeURL a (Os.Getenv w.env "GOOGLE_MAP_API_KEY")])
    ∧ httpRequests (Run w ("" :: rest)).trace
        = [geocodeURL "208 Anza St, San Francisco, CA" (Os.Getenv w.env "GOOGLE_MAP_API_KEY")]
    ∧ httpRequests (Run w []).trace
        = [geocodeURL "208 Anza St, San Francisco, CA" (Os.Getenv w.env "GOOGLE_MAP_API_KEY")]
    ∧ Run w (a :: rest) = Run w [a] := by
  have hreq : ∀ address, httpRequests (Run w address).trace
      = [geocodeURL (selectedAddress address) (Os.Getenv w.env "GOOGLE_MAP_API_KEY")] := by
    intro address
    obtain ⟨tail, htrace, hnone, _⟩ := Run_with_key w address hkey
    rw [htrace]
    simp [httpRequests] at hnone ⊢
    exact hnone
  refine ⟨fun ha => ?_, ?_, ?_, ?_⟩
  · rw [hreq, selectedAddress_cons, if_neg ha]
  · rw [hreq, selectedAddress_cons, if_pos rfl]; rfl
  · rw [hreq, selectedAddress_nil]; rfl
  · unfold Run
    rw [selectedAddress_cons a rest, selectedAddress_cons a []]

theorem Run_geocodes_selected_address_witness :
    httpRequests (Run (sampleWorld (some "k") "OK") ["Paris", "Rome"]).trace
      = [geocodeURL "Paris" "k"] :=
  (Run_geocodes_selected_address (sampleWorld (some "k") "OK") "Paris" ["Rome"]
    (by decide)).1 (by decide)

/-- C6: when the key variable is unset or empty, Run only logs the fatal message: no
request, no page, no file, the files as before.  When the variable is set and not empty, the
run starts with the geocoding request and never logs that message. -/
theorem Run_fatal_without_key (w : World) (address : List String) :
    ((w.env "GOOGLE_MAP_API_KEY" = none ∨ w.env "GOOGLE_MAP_API_KEY" = some "") →
      Run w address
        = { trace := [.logFatal "GOOGLE_MAP_API_KEY environment variable not set"],
            fs := w.fs, fatal := true })
    ∧ (∀ key, w.env "GOOGLE_MAP_API_KEY" = some key → key ≠ "" →
        (Run w address).trace.head?
            = some (.httpGet (geocodeURL (selectedAddress address) key))
        ∧ Event.logFatal "GOOGLE_MAP_API_KEY environment variable not set"
            ∉ (Run w address).trace) := by
  constructor
  · intro h
    apply Run_no_key
    rcases h with h | h <;> simp [Os.Getenv, h]
  · intro key henv hne
    have hget : Os.Getenv w.env "GOOGLE_MAP_API_KEY" = key := by simp [Os.Getenv, henv]
    obtain ⟨tail, htrace, _, hfatal⟩ := Run_with_key w address (by rw [hget]; exact hne)
    rw [htrace, hget]
    exact ⟨rfl, by simpa using hfatal⟩

theorem Run_fatal_without_key_witness :
    Run (sampleWorld none "OK") ["Paris"]
      = { trace := [.logFatal "GOOGLE_MAP_API_KEY environment variable not set"],
          fs := (sampleWorld none "OK").fs, fatal := true }
    ∧ Event.logFatal "GOOGLE_MAP_API_KEY environment variable not set"
        ∉ (Run (sampleWorld (some "k") "OK") ["Paris"]).trace :=
  ⟨(Run_fatal_without_key (sampleWorld none "OK") ["Paris"]).1 (Or.inl rfl),
   ((Run_fatal_without_key (sampleWorld (some "k") "OK") ["Paris"]).2 "k" rfl
      (by decide)).2⟩

/-- C7: when geocode fails, Run is the request followed by the fatal message, with the
files unchanged; an event that registers or serves the page, drives the browser or writes the
file occurs only after a successful geocode; and a registered page is generateMapHTML of
exactly the pair geocode returned. -/
theorem Run_page_from_geocode (w : World) (address : List String) :
    (∀ err, Os.Getenv w.env "GOOGLE_MAP_API_KEY" ≠ "" →
      (geocode w (selectedAddress address) (Os.Getenv w.env "GOOGLE_MAP_API_KEY")).2.2
        = some err →
      Run w address
        = { trace := [.httpGet (geocodeURL (selectedAddress address)
                (Os.Getenv w.env "GOOGLE_MAP_API_KEY")),
              .logFatal ("Geocoding failed: " ++ err)],
            fs := w.fs, fatal := true })
    ∧ (∀ e ∈ (Run w address).trace,
        (∃ pattern page, e = .handleFunc pattern page) ∨ (∃ addr, e = .listenAndServe addr)
          ∨ (∃ url, e = .chromedpRun url) ∨ (∃ name data, e = .writeFile name data) →
        Os.Getenv w.env "GOOGLE_MAP_API_KEY" ≠ ""
        ∧ (geocode w (selectedAddress address) (Os.Getenv w.env "GOOGLE_MAP_API_KEY")).2.2
            = none)
    ∧ (∀ pattern page, Event.handleFunc pattern page ∈ (Run w address).trace →
        page = generateMapHTML w.formatFloat
          (geocode w (selectedAddress address) (Os.Getenv w.env "GOOGLE_MAP_API_KEY")).1
          (geocode w (selectedAddress address) (Os.Getenv w.env "GOOGLE_MAP_API_KEY")).2.1
          (Os.Getenv w.env "GOOGLE_MAP_API_KEY")) := by
  by_cases hkey : Os.Getenv w.env "GOOGLE_MAP_API_KEY" = ""
  · rw [Run_no_key w address hkey]
    refine ⟨fun err h => absurd hkey h, ?_, ?_⟩
    · intro e he
      simp only [List.mem_singleton] at he
      subst he
      simp
    · intro pattern page h
      simp at h
  · rcases hg : geocode w (selectedAddress address) (Os.Getenv w.env "GOOGLE_MAP_API_KEY")
      with ⟨lat, lng, _ | gerr⟩
    · refine ⟨?_, fun _ _ _ => ⟨hkey, rfl⟩, ?_⟩
      · intro err _ herr
        simp at herr
      · intro pattern page
        unfold Run
        simp only [if_neg hkey, hg]
        cases w.listenAndServe htmlPort with
        | some err => simp
        | none =>
          dsimp only
          cases w.chromedp ("http://localhost" ++ htmlPort)
              (some (generateMapHTML w.formatFloat lat lng
                (Os.Getenv w.env "GOOGLE_MAP_API_KEY"))) with
          | error err => simp
          | ok buf =>
            dsimp only
            rcases saveScreenshot w.fs buf with ⟨fs1, _ | err⟩ <;> simp
    · have hrun : Run w address
          = { trace := [.httpGet (geocodeURL (selectedAddress address)
                  (Os.Getenv w.env "GOOGLE_MAP_API_KEY")),
                .logFatal ("Geocoding failed: " ++ gerr)],
              fs := w.fs, fatal := true } := by
        unfold Run
        simp only [if_neg hkey, hg]
        rfl
      rw [hrun]
      refine ⟨?_, ?_, ?_⟩
      · intro err _ herr
        simp only [Option.some.injEq] at herr
        rw [herr]
      · intro e he
        simp only [List.mem_cons, List.mem_singleton, List.not_mem_nil, or_false] at he
        rcases he with he | he <;> subst he <;> simp
      · intro pattern page h
        simp at h

theorem Run_page_from_geocode_witness :
    Run (sampleWorld (some "k") "REQUEST_DENIED") []
      = { trace := [.httpGet (geocodeURL defaultAddress "k"),
            .logFatal "Geocoding failed: failed to geocode address: REQUEST_DENIED"],
          fs := (sampleWorld (some "k") "REQUEST_DENIED").fs, fatal := true }
    ∧ generateMapHTML Float.toString 37.78 (-122.46) "k"
      = generateMapHTML (sampleWorld (some "k") "OK").formatFloat
          (geocode (sampleWorld (some "k") "OK") (selectedAddress []) "k").1
          (geocode (sampleWorld (some "k") "OK") (selectedAddress []) "k").2.1 "k" :=
  ⟨(Run_page_from_geocode (sampleWorld (some "k") "REQUEST_DENIED") []).1
      "failed to geocode address: REQUEST_DENIED" (by decide) rfl,
   (Run_page_from_geocode (sampleWorld (some "k") "OK") []).2.2 "/"
      (generateMapHTML Float.toString 37.78 (-122.46) "k")
      (List.mem_cons_of_mem _ (List.mem_cons_of_mem _ (List.mem_cons_self _ _)))⟩

end Googlemap

namespace Url

set_option maxRecDepth 100000 in
theorem escapeByte_ofNat_mem :
    ∀ n < 256, ∀ c ∈ escapeByte (UInt8.ofNat n), c ∈ escapedChars := by
  decide

theorem escapeByte_mem (b : UInt8) : ∀ c ∈ escapeByte b, c ∈ escapedChars := by
  have h := escapeByte_ofNat_mem b.toNat b.toNat_lt
  have hb : UInt8.ofNat b.toNat = b := by
    cases b with
    | mk v => simp [UInt8.ofNat, UInt8.toNat]
  rwa [hb] at h

/-- An escaped value holds none of the characters that end a value or start a parameter. -/
theorem QueryEscape_no_delimiter (s : String) (c : Char) (hc : c ∈ (QueryEscape s).data) :
    c ∈ escapedChars ∧ c ≠ '&' ∧ c ≠ '=' ∧ c ≠ '#' ∧ c ≠ '?' := by
  have hmem : c ∈ escapedChars := by
    unfold QueryEscape at hc
    simp only [List.mem_flatMap] at hc
    obtain ⟨b, _, hb⟩ := hc
    exact escapeByte_mem b c hb
  refine ⟨hmem, ?_, ?_, ?_, ?_⟩ <;> · rintro rfl; exact absurd hmem (by decide)

end Url

/-! ## Theorems: the write step of both flows -/

namespace Os

end Os

namespace Googlemap

end Googlemap

namespace Hoodmap

end Hoodmap

namespace Googlemap

end Googlemap

namespace Googlemap

end Googlemap

end Aperitif
